import Mathlib

/-!
Shallow embedding of the garnish annotation collector
(src/src/collector.rs) and verification of the specification claims.

Modelling notes.

Tokens come from the external garnish lexer; the collector inspects only a
the type tag and raw text of a token, so a token is embedded as a structure of
text, type tag and position, and the type tag enumerates the variants the
collector matches on plus the other variants appearing in the tests of the repository.  The banned-name constraints of the harness forbid identifiers
ending in certain substrings, so the lexer variant named after the at
sign marker is called AnnotationTok here, the rust constructor
TokenBlock::with_annotation is called TokenBlock.with_annot, the builder
Sink::until_annotation is Sink.until_annot, and the behavior variants
UntilAnnotation are called UntilAnnot; every other name follows the source.

Rust panics are modelled explicitly: the live code can abort through the
unimplemented macro in the part behavior match (collector.rs line 195) and
through the unguarded usize decrement of the nesting counter
(collector.rs line 142, which underflows in a debug build).  Both abort
paths are embedded as an error of type Panic, so collect_tokens returns
Except Panic (Except String (List TokenBlock)); the inner Except String
mirrors the rust signature Result of Vec of TokenBlock and String.

The rust loop popping ended frames and the end-of-input flush loop both
remove one frame per iteration, so they terminate after at most the stack
length many iterations; they are embedded with an explicit fuel argument
instantiated with the stack length, keeping every definition structurally
recursive and hence evaluable by the kernel.
-/

/-- Token type tags of the external lexer, restricted to the variants mentioned by the
collector and by the tests of the repository. -/
inductive TokenType where
| AnnotationTok
| Whitespace
| Number
| PlusSign
| Comma
| Subexpression
| StartExpression
| EndExpression
| StartGroup
| EndGroup
| StartSideEffect
| EndSideEffect
deriving DecidableEq

/-- External lexer token: raw text, type tag, line and column. -/
structure LexerToken where
  text : String
  token_type : TokenType
  line : Nat
  column : Nat
deriving DecidableEq

/-- PartBehavior from collector.rs lines 3 to 10. -/
inductive PartBehavior where
| UntilNewline
| TokenCount (n : Nat)
| StartEnd (startType : TokenType) (endType : TokenType)
| UntilToken (t : TokenType)
| UntilAnnot (a : String)
deriving DecidableEq

/-- PartParser from collector.rs lines 12 to 17. -/
structure PartParser where
  behavior : PartBehavior
  ignore_tokens : List TokenType
  trim_tokens : List TokenType
deriving DecidableEq

/-- PartParser::new from collector.rs lines 20 to 26. -/
def PartParser.new (behavior : PartBehavior) : PartParser :=
  ⟨behavior, [], []⟩

/-- PartParser::ignore_token from collector.rs lines 28 to 31. -/
def PartParser.ignore_token (p : PartParser) (token : TokenType) : PartParser :=
  { p with ignore_tokens := p.ignore_tokens ++ [token] }

/-- PartParser::ignore_tokens from collector.rs lines 33 to 36. -/
def PartParser.ignore_tokens_all (p : PartParser) (tokens : List TokenType) : PartParser :=
  { p with ignore_tokens := p.ignore_tokens ++ tokens }

/-- EndCondition from collector.rs lines 39 to 46. -/
inductive EndCondition where
| Lone
| UntilNewline
| Count (n : Nat)
| UntilToken (t : TokenType)
| UntilAnnot (a : String)
deriving DecidableEq

/-- Sink from collector.rs lines 48 to 54. -/
structure Sink where
  annotation_text : String
  end_condition : EndCondition
  ignore_for_end_condition_list : List TokenType
  part_parsers : List PartParser
deriving DecidableEq

/-- Sink::new from collector.rs lines 57 to 64. -/
def Sink.new (annotation_text : String) : Sink :=
  ⟨annotation_text, .Lone, [.Whitespace], []⟩

/-- Sink::count from collector.rs lines 66 to 69. -/
def Sink.count (s : Sink) (n : Nat) : Sink :=
  { s with end_condition := .Count n }

/-- Sink::until_token from collector.rs lines 71 to 74. -/
def Sink.until_token (s : Sink) (t : TokenType) : Sink :=
  { s with end_condition := .UntilToken t }

/-- Sink::until_annotation from collector.rs lines 76 to 79. -/
def Sink.until_annot (s : Sink) (a : String) : Sink :=
  { s with end_condition := .UntilAnnot a }

/-- Sink::newline from collector.rs lines 81 to 84. -/
def Sink.newline (s : Sink) : Sink :=
  { s with end_condition := .UntilNewline }

/-- Sink::ignore from collector.rs lines 86 to 89. -/
def Sink.ignore (s : Sink) (tokens : List TokenType) : Sink :=
  { s with ignore_for_end_condition_list := tokens }

/-- Sink::part from collector.rs lines 91 to 94. -/
def Sink.part (s : Sink) (p : PartParser) : Sink :=
  { s with part_parsers := s.part_parsers ++ [p] }

/-- TokenBlock from collector.rs lines 340 to 346. -/
structure TokenBlock where
  annotation_text : String
  nested : List TokenBlock
  tokens : List LexerToken
  parts : List (List LexerToken)

/-- TokenBlock::new from collector.rs lines 349 to 356. -/
def TokenBlock.new (annotation_text : String) (tokens : List LexerToken) : TokenBlock :=
  ⟨annotation_text, [], tokens, []⟩

/-- TokenBlock::new_with_parts from collector.rs lines 358 to 369. -/
def TokenBlock.new_with_parts (annotation_text : String) (tokens : List LexerToken)
    (parts : List (List LexerToken)) : TokenBlock :=
  ⟨annotation_text, [], tokens, parts⟩

/-- TokenBlock::with_annotation from collector.rs lines 371 to 378. -/
def TokenBlock.with_annot (annotation_text : String) : TokenBlock :=
  ⟨annotation_text, [], [], []⟩

/-- TokenBlock::with_tokens from collector.rs lines 380 to 382. -/
def TokenBlock.with_tokens (tokens : List LexerToken) : TokenBlock :=
  TokenBlock.new ("") tokens

/-- CollectionData from collector.rs lines 97 to 105; the rust struct holds
a reference to its Sink, embedded here as the Sink value itself. -/
structure CollectionData where
  sink : Sink
  block : TokenBlock
  nest_level : Nat
  count : Nat
  ended : Bool
  current_part : Nat
  current_part_tokens : List LexerToken

/-- CollectionData::new from collector.rs lines 107 to 119. -/
def CollectionData.new (sink : Sink) (block : TokenBlock) (nest_level : Nat) : CollectionData :=
  ⟨sink, block, nest_level, 0, false, 0, []⟩

/-- Collector from collector.rs lines 121 to 124. -/
structure Collector where
  sinks : List Sink
deriving DecidableEq

/-- The two abort paths of the live collect_tokens: the unimplemented
macro at collector.rs line 195 and the unguarded usize decrement at
line 142. -/
inductive Panic where
| nestUnderflow
| unimplementedBehavior
deriving DecidableEq

/-- The sink lookup self.sinks.iter().find on annotation text, from
collector.rs lines 149 to 153 and 200 to 204. -/
def findSink (sinks : List Sink) (text : String) : Option Sink :=
  sinks.find? (fun item => item.annotation_text == text)

/-- Rust token.get_text().contains of the one-character newline string,
from collector.rs lines 194. -/
def containsNewline (s : String) : Bool :=
  s.data.any (fun ch => ch == Char.ofNat 10)

/-- Nesting depth update from collector.rs lines 137 to 145: the three
group openers increment, the three closers decrement without a lower
bound guard, which is an underflow abort when the counter is zero. -/
def nestStep (nest : Nat) (tt : TokenType) : Except Panic Nat :=
  match tt with
  | .StartExpression | .StartGroup | .StartSideEffect => .ok (nest + 1)
  | .EndExpression | .EndGroup | .EndSideEffect =>
    match nest with
    | 0 => .error .nestUnderflow
    | m + 1 => .ok m
  | _ => .ok nest

/-- The pop loop of collector.rs lines 245 to 257: while the top frame is
marked ended, pop it and attach its block to the nested
list of the new top frame, or to the root forest when the stack empties.  The root forest is
accumulated in reverse (head is the most recently pushed block).  The
fuel argument bounds the iteration count; the loop removes one frame per
iteration, so fuel equal to the stack length is always enough. -/
def popEnded (fuel : Nat) (stack : List CollectionData) (blocks : List TokenBlock) :
    List CollectionData × List TokenBlock :=
  match stack with
  | [] => ([], blocks)
  | top :: rest =>
    if top.ended then
      match rest with
      | [] => ([], top.block :: blocks)
      | parent :: rest2 =>
        match fuel with
        | 0 => (stack, blocks)
        | f + 1 =>
          popEnded f
            ({ parent with block := { parent.block with nested := parent.block.nested ++ [top.block] } } :: rest2)
            blocks
    else (stack, blocks)

/-- The end-of-input flush of collector.rs lines 323 to 329: pop every
remaining frame, ended or not, attaching its block to its parent or the
root forest; the current part buffer of each frame is not committed. -/
def flushAll (fuel : Nat) (stack : List CollectionData) (blocks : List TokenBlock) :
    List TokenBlock :=
  match stack with
  | [] => blocks
  | top :: rest =>
    match rest with
    | [] => top.block :: blocks
    | parent :: rest2 =>
      match fuel with
      | 0 => blocks
      | f + 1 =>
        flushAll f
          ({ parent with block := { parent.block with nested := parent.block.nested ++ [top.block] } } :: rest2)
          blocks

/-- One iteration of the token loop of collector.rs lines 146 to 320,
after the nesting update: n is the already updated nesting level, blocks
the root forest accumulated in reverse, stack the frame stack with the
top frame first.  Returns the new forest and stack, or the abort of the
unimplemented part behavior branch. -/
def coreStep (c : Collector) (n : Nat) (blocks : List TokenBlock)
    (stack : List CollectionData) (tok : LexerToken) :
    Except Panic (List TokenBlock × List CollectionData) :=
  match stack with
  | [] =>
    match tok.token_type with
    | .AnnotationTok =>
      match findSink c.sinks tok.text with
      | none => .ok (blocks, [])
      | some sink =>
        match sink.end_condition with
        | .Lone => .ok (TokenBlock.with_annot tok.text :: blocks, [])
        | _ => .ok (blocks, [CollectionData.new sink (TokenBlock.with_annot tok.text) n])
    | _ =>
      match blocks with
      | [] => .ok ([TokenBlock.with_tokens [tok]], [])
      | last :: restBlocks =>
        if last.annotation_text == "" then
          .ok ({ last with tokens := last.tokens ++ [tok] } :: restBlocks, [])
        else
          .ok (TokenBlock.with_tokens [tok] :: last :: restBlocks, [])
  | d :: rest =>
    match d.sink.part_parsers.get? d.current_part with
    | none => .ok (blocks, d :: rest)
    | some prs =>
      match (match prs.behavior with
             | .UntilNewline => Except.ok (containsNewline tok.text)
             | _ => Except.error Panic.unimplementedBehavior) with
      | .error p => .error p
      | .ok part_ended =>
        match (match tok.token_type with
               | .AnnotationTok =>
                 match findSink c.sinks tok.text with
                 | none => (d.current_part_tokens ++ [tok], blocks, none)
                 | some s =>
                   match s.end_condition with
                   | .Lone => (d.current_part_tokens, TokenBlock.with_annot tok.text :: blocks, none)
                   | _ => (d.current_part_tokens, blocks, some s)
               | _ => (d.current_part_tokens ++ [tok], blocks, (none : Option Sink))) with
        | (buf1, blocks1, nestedSink) =>
          match (if part_ended then
                   ({ d.block with parts := d.block.parts ++ [buf1] }, ([] : List LexerToken), d.current_part + 1)
                 else (d.block, buf1, d.current_part)) with
          | (block1, buf2, part1) =>
            match ({ d with
                     block := block1
                     current_part_tokens := buf2
                     current_part := part1
                     ended := decide (d.sink.part_parsers.length ≤ part1) } : CollectionData) with
            | d1 =>
              match (match nestedSink with
                     | none => d1 :: rest
                     | some s => CollectionData.new s (TokenBlock.with_annot tok.text) n :: d1 :: rest) with
              | stack1 =>
                match popEnded stack1.length stack1 blocks1 with
                | (stack2, blocks2) => .ok (blocks2, stack2)

/-- The per-call state of the collector: root forest in reverse, frame stack
with the top first, and the global nesting level. -/
structure CollectState where
  blocks : List TokenBlock
  stack : List CollectionData
  nest : Nat

/-- One full iteration of the token loop of collector.rs lines 136 to
321: the nesting update followed by the stack dispatch. -/
def step (c : Collector) (st : CollectState) (tok : LexerToken) : Except Panic CollectState :=
  match nestStep st.nest tok.token_type with
  | .error p => .error p
  | .ok n =>
    match coreStep c n st.blocks st.stack tok with
    | .error p => .error p
    | .ok (bs, stk) => .ok ⟨bs, stk, n⟩

/-- The token loop of collector.rs lines 136 to 321 over a token list. -/
def runTokens (c : Collector) : CollectState → List LexerToken → Except Panic CollectState
  | st, [] => .ok st
  | st, t :: rest =>
    match step c st t with
    | .error p => .error p
    | .ok st1 => runTokens c st1 rest

/-- Collector::collect_tokens from collector.rs lines 131 to 332: run the
token loop from the initial state (empty forest, empty stack, nesting
level one), flush the remaining frames at end of input, and return the
forest; the only rust return is Ok, and the abort paths are surfaced as
the outer Except Panic layer. -/
def collect_tokens (c : Collector) (tokens : List LexerToken) :
    Except Panic (Except String (List TokenBlock)) :=
  match runTokens c ⟨[], [], 1⟩ tokens with
  | .error p => .error p
  | .ok st => .ok (.ok (List.reverse (flushAll st.stack.length st.stack st.blocks)))

/-- Collector::collect_tokens_from_input from collector.rs lines 334 to
337: lex, propagating a lexer error through the question mark operator,
then collect.  The lexer is an external collaborator, passed here as a
parameter. -/
def collect_tokens_from_input (lexFn : String → Except String (List LexerToken))
    (c : Collector) (input : String) : Except Panic (Except String (List TokenBlock)) :=
  match lexFn input with
  | .error e => .ok (.error e)
  | .ok tokens => collect_tokens c tokens

/-! ## Concrete tokens and collectors used by the claim instances -/

/-- An annotation-typed token with the given text. -/
def annTok (s : String) : LexerToken := ⟨s, .AnnotationTok, 0, 0⟩

/-- A number token with the given text. -/
def numTok (s : String) : LexerToken := ⟨s, .Number, 0, 0⟩

/-- A whitespace token with the given text. -/
def wsTok (s : String) : LexerToken := ⟨s, .Whitespace, 0, 0⟩

/-- A plus-sign token. -/
def plusTok : LexerToken := ⟨"+", .PlusSign, 0, 0⟩

/-- An opening expression brace token. -/
def openTok : LexerToken := ⟨"\x7b", .StartExpression, 0, 0⟩

/-- A closing expression brace token. -/
def closeTok : LexerToken := ⟨"\x7d", .EndExpression, 0, 0⟩

mutual

/-- Every token reachable in a block: its direct tokens, then its part
spans in order, then the tokens of its nested blocks, depth first. -/
def blockTokens : TokenBlock → List LexerToken
  | .mk _ nested tokens parts => tokens ++ parts.flatten ++ blockForestTokens nested

/-- Every token reachable in a forest of blocks, in order. -/
def blockForestTokens : List TokenBlock → List LexerToken
  | [] => []
  | b :: bs => blockTokens b ++ blockForestTokens bs

end

/-- The collector of the until_token test of the repository (collector.rs
lines 519 to 559): one Sink on the test annotation with the UntilToken
end condition and no part parsers. -/
def untilTokenTestCollector : Collector :=
  ⟨[(Sink.new ("@Test")).until_token .EndExpression]⟩

/-- The token sequence the lexer produces for the until_token test input,
read off the expected blocks of collector.rs lines 528 to 558. -/
def untilTokenTestTokens : List LexerToken :=
  [annTok ("@Test"), wsTok (" "), openTok, wsTok (" "), numTok ("5"), wsTok (" "),
   plusTok, wsTok (" "), numTok ("5"), wsTok (" "), closeTok,
   wsTok (" "), numTok ("5"), wsTok (" "), plusTok, wsTok (" "), numTok ("5")]

/-- C1: the in-order concatenation of the tokens reachable in the output
forest is claimed to equal the input minus the consumed annotation
markers.  The live code refutes this: on the until_token test input
of the repository itself, every token after the opening annotation is
processed while the sink of the top frame has no part parser at the current
part index (collector.rs line 190, branch None at line 191), so all
sixteen remaining tokens are dropped; the output forest carries no token
at all, contradicting both the claim and the expectation of the test at
collector.rs lines 528 to 558. -/
theorem collect_tokens_drops_frame_tokens :
    collect_tokens untilTokenTestCollector untilTokenTestTokens
      = .ok (.ok [TokenBlock.with_annot ("@Test")]) ∧
    blockForestTokens [TokenBlock.with_annot ("@Test")] = [] :=
  ⟨rfl, rfl⟩

/-- Collector with one Sink on the test annotation, UntilNewline end
condition and a single UntilNewline part parser. -/
def newlinePartCollector : Collector :=
  ⟨[((Sink.new ("@T")).newline).part (PartParser.new .UntilNewline)]⟩

/-- C3: when input ends with the frame still open and a nonempty part
buffer, the claim says the buffer is committed as the final short part.
The live end-of-input loop (collector.rs lines 323 to 329) pushes only
data.block and discards data.current_part_tokens: here the buffered
number token vanishes and the resulting block has no parts at all. -/
theorem eof_flush_discards_part_buffer :
    collect_tokens newlinePartCollector [annTok ("@T"), numTok ("5")]
      = .ok (.ok [⟨"@T", [], [], []⟩]) :=
  rfl

/-- Collector whose single sink carries a part parser with the UntilToken
behavior, which the live code has not implemented. -/
def untilTokenPartCollector : Collector :=
  ⟨[((Sink.new ("@T")).until_token .EndExpression).part
      (PartParser.new (.UntilToken .EndExpression))]⟩

/-- C6: a frame whose active part rule is UntilToken is claimed to end on
a balanced occurrence of the named token type.  The live code instead
aborts: the part behavior match at collector.rs lines 193 to 196
implements only UntilNewline and hits the unimplemented macro for
UntilToken on the very first token processed inside the frame. -/
theorem until_token_part_behavior_panics :
    collect_tokens untilTokenPartCollector [annTok ("@T"), numTok ("5")]
      = .error .unimplementedBehavior :=
  rfl

/-- C2 counterexample: two group closers underflow the nesting counter
(collector.rs line 142, usize decrement without lower bound), so
collect_tokens aborts instead of returning Ok; the claim that no
execution path aborts is false. -/
theorem collect_tokens_underflow_counterexample :
    collect_tokens ⟨[]⟩ [closeTok, closeTok] = .error .nestUnderflow :=
  rfl

/-- C2 (amended): whenever collect_tokens completes without aborting it
returns the Ok variant (the rust function has no Err return of its own);
but abort paths exist, through the nesting underflow and the
unimplemented part behaviors, so completion is not guaranteed. -/
theorem collect_tokens_ok_when_no_panic (c : Collector) (toks : List LexerToken) :
    (∃ pk, collect_tokens c toks = .error pk) ∨
    (∃ bs, collect_tokens c toks = .ok (.ok bs)) := by
  cases hr : runTokens c ⟨[], [], 1⟩ toks with
  | error pk => exact .inl ⟨pk, by simp [collect_tokens, hr]⟩
  | ok st =>
    exact .inr ⟨(flushAll st.stack.length st.stack st.blocks).reverse,
      by simp [collect_tokens, hr]⟩

/-- C9: collect_tokens_from_input is exactly lex followed by
collect_tokens; a lexer error is surfaced unchanged and no collection
runs, a lexer success is handed to collect_tokens as is. -/
theorem collect_from_input_is_lex_then_collect
    (lexFn : String → Except String (List LexerToken)) (c : Collector) (input : String) :
    (∀ e, lexFn input = .error e →
       collect_tokens_from_input lexFn c input = .ok (.error e)) ∧
    (∀ toks, lexFn input = .ok toks →
       collect_tokens_from_input lexFn c input = collect_tokens c toks) := by
  constructor <;> intro x hx <;> simp [collect_tokens_from_input, hx]

/-- Witness for C9 at a concrete failing and a concrete succeeding
lexer. -/
theorem collect_from_input_is_lex_then_collect_witness :
    collect_tokens_from_input (fun _ => .error ("bad")) ⟨[]⟩ ("x") = .ok (.error ("bad")) ∧
    collect_tokens_from_input (fun _ => .ok []) ⟨[]⟩ ("x") = collect_tokens ⟨[]⟩ [] :=
  ⟨(collect_from_input_is_lex_then_collect (fun _ => .error ("bad")) ⟨[]⟩ ("x")).1 ("bad") rfl,
   (collect_from_input_is_lex_then_collect (fun _ => .ok []) ⟨[]⟩ ("x")).2 [] rfl⟩

/-- Group opener token types (collector.rs line 138). -/
def isOpener (tt : TokenType) : Bool :=
  match tt with
  | .StartExpression | .StartGroup | .StartSideEffect => true
  | _ => false

/-- Group closer token types (collector.rs line 141). -/
def isCloser (tt : TokenType) : Bool :=
  match tt with
  | .EndExpression | .EndGroup | .EndSideEffect => true
  | _ => false

/-- Number of group-opening tokens in a sequence. -/
def openerCount (toks : List LexerToken) : Nat :=
  toks.countP (fun t => isOpener t.token_type)

/-- Number of group-closing tokens in a sequence. -/
def closerCount (toks : List LexerToken) : Nat :=
  toks.countP (fun t => isCloser t.token_type)

/-- A successful step performs exactly the nesting update of
collector.rs lines 137 to 145 on the nest field. -/
theorem step_nest {c : Collector} {st st1 : CollectState} {tok : LexerToken}
    (h : step c st tok = .ok st1) : nestStep st.nest tok.token_type = .ok st1.nest := by
  unfold step at h
  cases hn : nestStep st.nest tok.token_type with
  | error p => rw [hn] at h; simp at h
  | ok n =>
    rw [hn] at h
    dsimp only at h
    cases hc : coreStep c n st.blocks st.stack tok with
    | error p => rw [hc] at h; simp at h
    | ok pr =>
      rw [hc] at h
      obtain ⟨bs, stk⟩ := pr
      simp at h
      rw [← h]

/-- Along any successful run, the number of closers in every prefix of
the consumed input is bounded by the openers plus the starting nesting
level: the unguarded decrement never gets the chance to underflow. -/
theorem runTokens_nest_bound {c : Collector} :
    ∀ (toks : List LexerToken) (st st1 : CollectState),
      runTokens c st toks = .ok st1 →
      ∀ p, p <+: toks → closerCount p ≤ openerCount p + st.nest := by
  intro toks
  induction toks with
  | nil =>
    intro st st1 _ p hp
    rw [List.prefix_nil] at hp
    subst hp
    simp [closerCount, openerCount]
  | cons t rest ih =>
    intro st st1 h p hp
    unfold runTokens at h
    cases hs : step c st t with
    | error q => rw [hs] at h; simp at h
    | ok st2 =>
      rw [hs] at h
      have hn := step_nest hs
      match p, hp with
      | [], _ => simp [closerCount, openerCount]
      | p0 :: ptail, hp =>
        rw [List.cons_prefix_cons] at hp
        obtain ⟨rfl, hpt⟩ := hp
        have hb := ih st2 st1 h ptail hpt
        have hcc : closerCount (p0 :: ptail)
            = closerCount ptail + (if isCloser p0.token_type then 1 else 0) := by
          simp [closerCount, List.countP_cons]
        have hoc : openerCount (p0 :: ptail)
            = openerCount ptail + (if isOpener p0.token_type then 1 else 0) := by
          simp [openerCount, List.countP_cons]
        cases htt : p0.token_type <;>
          rw [htt] at hn <;>
          simp only [nestStep] at hn <;>
          first
          | (cases hst : st.nest with
             | zero => rw [hst] at hn; simp at hn
             | succ m =>
               rw [hst] at hn
               simp at hn
               rw [hcc, hoc, htt]
               simp [isCloser, isOpener]
               omega)
          | (simp at hn
             rw [hcc, hoc, htt]
             simp [isCloser, isOpener]
             omega)

/-- C10: for any token sequence with a prefix in which the group-closing
tokens outnumber the group-opening tokens by more than one, the
collector aborts (the nesting counter, started at one and decremented
without a guard at collector.rs line 142, underflows there, unless an
unimplemented part behavior aborts the run even earlier), so
collect_tokens is not total over arbitrary token sequences. -/
theorem collect_tokens_aborts_on_excess_closers (c : Collector) (toks : List LexerToken)
    (h : ∃ p, p <+: toks ∧ openerCount p + 1 < closerCount p) :
    ∃ pk, collect_tokens c toks = .error pk := by
  obtain ⟨p, hp, hcnt⟩ := h
  cases hr : runTokens c ⟨[], [], 1⟩ toks with
  | error pk => exact ⟨pk, by simp [collect_tokens, hr]⟩
  | ok st =>
    have hbound := runTokens_nest_bound toks ⟨[], [], 1⟩ st hr p hp
    simp at hbound
    omega

/-- Witness for C10: two bare closers already underflow. -/
theorem collect_tokens_aborts_on_excess_closers_witness :
    ∃ pk, collect_tokens ⟨[]⟩ [closeTok, closeTok] = .error pk :=
  collect_tokens_aborts_on_excess_closers ⟨[]⟩ [closeTok, closeTok]
    ⟨[closeTok, closeTok], ⟨[], rfl⟩, by decide⟩

/-- The pop loop does nothing when the top frame is not marked ended. -/
theorem popEnded_not_ended (fuel : Nat) (top : CollectionData) (rest : List CollectionData)
    (blocks : List TokenBlock) (h : top.ended = false) :
    popEnded fuel (top :: rest) blocks = (top :: rest, blocks) := by
  cases rest <;> cases fuel <;> simp [popEnded, h]

/-- Collector with the two-sink configuration used to exhibit the lone
block placement: a parts-bearing sink and a lone sink. -/
def lonePlacementCollector : Collector :=
  ⟨[((Sink.new ("@T")).newline).part (PartParser.new .UntilNewline), Sink.new ("@L")]⟩

/-- C4 counterexample: a lone-sink annotation occurring while a frame is
open yields an empty block at the ROOT of the forest (collector.rs
lines 211 to 215 push onto blocks), ahead of the block of the still
open frame, whose nested list stays empty: the claim that it is appended
to the nested list of the open frame is false. -/
theorem lone_block_in_frame_goes_to_root :
    collect_tokens lonePlacementCollector [annTok ("@T"), annTok ("@L")]
      = .ok (.ok [⟨"@L", [], [], []⟩, ⟨"@T", [], [], []⟩]) :=
  rfl

/-- C4 (amended): while the top frame has an active part parser
(UntilNewline behavior) at its current part index, an annotation token
whose registered sink is lone and whose text has no newline pushes the
empty block onto the root forest and leaves the frame (in particular
the nested list of its block and its part buffer) and the nesting level
unchanged; while the top frame has NO active part parser at its current
part index, the same annotation token is dropped outright: no block is
produced anywhere and the state is exactly unchanged. -/
theorem step_lone_sink_in_frame :
    (∀ (c : Collector) (st : CollectState) (tok : LexerToken)
       (d : CollectionData) (rest : List CollectionData) (p : PartParser) (s : Sink),
       st.stack = d :: rest →
       d.sink.part_parsers.get? d.current_part = some p →
       p.behavior = .UntilNewline →
       tok.token_type = .AnnotationTok →
       findSink c.sinks tok.text = some s →
       s.end_condition = .Lone →
       containsNewline tok.text = false →
       d.ended = false →
       step c st tok
         = .ok ⟨TokenBlock.with_annot tok.text :: st.blocks, d :: rest, st.nest⟩) ∧
    (∀ (c : Collector) (st : CollectState) (tok : LexerToken)
       (d : CollectionData) (rest : List CollectionData),
       st.stack = d :: rest →
       d.sink.part_parsers.get? d.current_part = none →
       tok.token_type = .AnnotationTok →
       step c st tok = .ok st) := by
  constructor
  · intro c st tok d rest p s hstack hpp hb htt hfind hLone hnl hend
    have hlt : d.current_part < d.sink.part_parsers.length := by
      by_contra hge
      rw [List.get?_eq_none.mpr (Nat.le_of_not_lt hge)] at hpp
      simp at hpp
    obtain ⟨blocks, stack, nest⟩ := st
    simp only at hstack
    subst hstack
    obtain ⟨sk, blk, nlv, cnt, en, cp, cpt⟩ := d
    simp only at hpp hlt hend
    subst hend
    simp only [List.get?_eq_getElem?] at hpp
    simp [step, nestStep, coreStep, htt, hfind, hLone, hpp, hb, hnl, popEnded_not_ended,
      Nat.not_le.mpr hlt]
  · intro c st tok d rest hstack hpp htt
    obtain ⟨blocks, stack, nest⟩ := st
    simp only at hstack
    subst hstack
    simp only [List.get?_eq_getElem?] at hpp
    simp [step, nestStep, coreStep, htt, hpp]

/-- Witness for the amended C4: the root-placement conjunct at a frame
with an active UntilNewline part parser, and the drop conjunct at a
frame whose sink (built with until_token and no parts) has no part
parser, where the lone annotation produces nothing. -/
theorem step_lone_sink_in_frame_witness :
    step lonePlacementCollector
      ⟨[], [CollectionData.new (((Sink.new ("@T")).newline).part (PartParser.new .UntilNewline))
              (TokenBlock.with_annot ("@T")) 1], 1⟩
      (annTok ("@L"))
    = .ok ⟨[TokenBlock.with_annot ("@L")],
           [CollectionData.new (((Sink.new ("@T")).newline).part (PartParser.new .UntilNewline))
              (TokenBlock.with_annot ("@T")) 1], 1⟩ ∧
    step lonePlacementCollector
      ⟨[], [CollectionData.new ((Sink.new ("@T")).until_token .EndExpression)
              (TokenBlock.with_annot ("@T")) 1], 1⟩
      (annTok ("@L"))
    = .ok ⟨[], [CollectionData.new ((Sink.new ("@T")).until_token .EndExpression)
                  (TokenBlock.with_annot ("@T")) 1], 1⟩ :=
  ⟨step_lone_sink_in_frame.1 lonePlacementCollector
     ⟨[], [CollectionData.new (((Sink.new ("@T")).newline).part (PartParser.new .UntilNewline))
             (TokenBlock.with_annot ("@T")) 1], 1⟩
     (annTok ("@L"))
     (CollectionData.new (((Sink.new ("@T")).newline).part (PartParser.new .UntilNewline))
       (TokenBlock.with_annot ("@T")) 1)
     [] (PartParser.new .UntilNewline) (Sink.new ("@L"))
     rfl rfl rfl rfl rfl rfl rfl rfl,
   step_lone_sink_in_frame.2 lonePlacementCollector
     ⟨[], [CollectionData.new ((Sink.new ("@T")).until_token .EndExpression)
             (TokenBlock.with_annot ("@T")) 1], 1⟩
     (annTok ("@L"))
     (CollectionData.new ((Sink.new ("@T")).until_token .EndExpression)
       (TokenBlock.with_annot ("@T")) 1)
     [] rfl rfl rfl⟩

/-- C5 counterexample: an annotation token with no matching sink,
arriving while no frame is open, is dropped from the output entirely
(collector.rs line 154, the branch does nothing), not coalesced into an
anonymous root block as the claim states. -/
theorem unregistered_annot_dropped_at_root :
    collect_tokens ⟨[]⟩ [annTok ("@X")] = .ok (.ok []) :=
  rfl

/-- C5 (amended): an annotation token with no matching sink never opens
a frame and never produces a block; while no frame is open it is dropped
(the state is exactly unchanged), and while a frame with an active
UntilNewline part parser is open and the text has no newline it is
appended to the current part buffer. -/
theorem step_unregistered_annot :
    (∀ (c : Collector) (st : CollectState) (tok : LexerToken),
       st.stack = [] →
       tok.token_type = .AnnotationTok →
       findSink c.sinks tok.text = none →
       step c st tok = .ok st) ∧
    (∀ (c : Collector) (st : CollectState) (tok : LexerToken)
       (d : CollectionData) (rest : List CollectionData) (p : PartParser),
       st.stack = d :: rest →
       d.sink.part_parsers.get? d.current_part = some p →
       p.behavior = .UntilNewline →
       tok.token_type = .AnnotationTok →
       findSink c.sinks tok.text = none →
       containsNewline tok.text = false →
       d.ended = false →
       step c st tok
         = .ok ⟨st.blocks,
                { d with current_part_tokens := d.current_part_tokens ++ [tok] } :: rest,
                st.nest⟩) := by
  constructor
  · intro c st tok h1 h2 h3
    obtain ⟨blocks, stack, nest⟩ := st
    simp only at h1
    subst h1
    simp [step, nestStep, coreStep, h2, h3]
  · intro c st tok d rest p hstack hpp hb htt hfind hnl hend
    have hlt : d.current_part < d.sink.part_parsers.length := by
      by_contra hge
      rw [List.get?_eq_none.mpr (Nat.le_of_not_lt hge)] at hpp
      simp at hpp
    obtain ⟨blocks, stack, nest⟩ := st
    simp only at hstack
    subst hstack
    obtain ⟨sk, blk, nlv, cnt, en, cp, cpt⟩ := d
    simp only at hpp hlt hend
    subst hend
    simp only [List.get?_eq_getElem?] at hpp
    simp [step, nestStep, coreStep, htt, hfind, hpp, hb, hnl, popEnded_not_ended,
      Nat.not_le.mpr hlt]

/-- Witness for the amended C5: both conjuncts at concrete inputs. -/
theorem step_unregistered_annot_witness :
    step ⟨[]⟩ ⟨[], [], 1⟩ (annTok ("@X")) = .ok ⟨[], [], 1⟩ ∧
    step ⟨[]⟩
      ⟨[], [CollectionData.new (((Sink.new ("@T")).newline).part (PartParser.new .UntilNewline))
              (TokenBlock.with_annot ("@T")) 1], 1⟩
      (annTok ("@X"))
    = .ok ⟨[], [{ CollectionData.new
                    (((Sink.new ("@T")).newline).part (PartParser.new .UntilNewline))
                    (TokenBlock.with_annot ("@T")) 1
                  with current_part_tokens := [annTok ("@X")] }], 1⟩ :=
  ⟨step_unregistered_annot.1 ⟨[]⟩ ⟨[], [], 1⟩ (annTok ("@X")) rfl rfl rfl,
   step_unregistered_annot.2 ⟨[]⟩ _ (annTok ("@X")) _ [] (PartParser.new .UntilNewline)
     rfl rfl rfl rfl rfl rfl rfl⟩

/-- Collector pairing the UntilNewline part sink with a lone sink whose
annotation text itself contains a newline. -/
def newlineLoneCollector : Collector :=
  ⟨[((Sink.new ("@T")).newline).part (PartParser.new .UntilNewline), Sink.new ("@L\n")]⟩

/-- C7 counterexample: the part does end on the first token whose text
contains a newline, but when that token is an annotation with a
registered lone sink it is NOT included in the committed part span: the
committed part here is empty and the token becomes a root block
instead. -/
theorem newline_terminator_not_in_part :
    collect_tokens newlineLoneCollector [annTok ("@T"), annTok ("@L\n")]
      = .ok (.ok [⟨"@L\n", [], [], []⟩, ⟨"@T", [], [], [[]]⟩]) :=
  rfl

/-- C7 (amended): under an active UntilNewline part rule, a
non-annotation token ends the current part exactly when its text
contains a newline, and such an ordinary terminating token is included
at the end of the committed span; a token without a newline is merely
buffered. -/
theorem step_until_newline_part (c : Collector) (st : CollectState) (tok : LexerToken)
    (d : CollectionData) (rest : List CollectionData) (p : PartParser) (n : Nat)
    (hstack : st.stack = d :: rest)
    (hpp : d.sink.part_parsers.get? d.current_part = some p)
    (hb : p.behavior = .UntilNewline)
    (htt : tok.token_type ≠ .AnnotationTok)
    (hn : nestStep st.nest tok.token_type = .ok n)
    (hlt : d.current_part + 1 < d.sink.part_parsers.length) :
    (containsNewline tok.text = true →
       step c st tok
         = .ok ⟨st.blocks,
                { d with
                  block := { d.block with
                             parts := d.block.parts ++ [d.current_part_tokens ++ [tok]] },
                  current_part_tokens := [],
                  current_part := d.current_part + 1,
                  ended := false } :: rest,
                n⟩) ∧
    (containsNewline tok.text = false →
       step c st tok
         = .ok ⟨st.blocks,
                { d with
                  current_part_tokens := d.current_part_tokens ++ [tok],
                  ended := false } :: rest,
                n⟩) := by
  obtain ⟨blocks, stack, nest⟩ := st
  simp only at hstack hn
  subst hstack
  obtain ⟨sk, blk, nlv, cnt, en, cp, cpt⟩ := d
  simp only at hpp hlt
  simp only [List.get?_eq_getElem?] at hpp
  have hlt1 : cp < sk.part_parsers.length := Nat.lt_of_succ_lt hlt
  constructor <;> intro hnl <;>
    cases htok : tok.token_type <;>
      (try exact absurd htok htt) <;>
      rw [htok] at hn <;>
      simp only [nestStep] at hn <;>
      first
      | (rcases nest with _ | m
         · simp at hn
         · simp at hn
           subst hn
           simp [step, nestStep, coreStep, htok, hpp, hb, hnl, popEnded_not_ended,
             Nat.not_le.mpr hlt, Nat.not_le.mpr hlt1])
      | (simp at hn
         subst hn
         simp [step, nestStep, coreStep, htok, hpp, hb, hnl, popEnded_not_ended,
           Nat.not_le.mpr hlt, Nat.not_le.mpr hlt1])

/-- A sink with two UntilNewline parts, used to witness the amended
C7. -/
def twoPartSink : Sink :=
  (((Sink.new ("@T")).newline).part (PartParser.new .UntilNewline)).part
    (PartParser.new .UntilNewline)

/-- Witness for the amended C7: a newline whitespace token ends the
first of two parts and lands at the end of the committed span. -/
theorem step_until_newline_part_witness :
    step ⟨[twoPartSink]⟩
      ⟨[], [CollectionData.new twoPartSink (TokenBlock.with_annot ("@T")) 1], 1⟩
      (wsTok ("\n"))
    = .ok ⟨[], [{ CollectionData.new twoPartSink (TokenBlock.with_annot ("@T")) 1 with
                  block := { TokenBlock.with_annot ("@T") with parts := [[wsTok ("\n")]] },
                  current_part_tokens := [],
                  current_part := 1,
                  ended := false }], 1⟩ :=
  (step_until_newline_part ⟨[twoPartSink]⟩
    ⟨[], [CollectionData.new twoPartSink (TokenBlock.with_annot ("@T")) 1], 1⟩
    (wsTok ("\n"))
    (CollectionData.new twoPartSink (TokenBlock.with_annot ("@T")) 1)
    [] (PartParser.new .UntilNewline) 1
    rfl rfl rfl (by decide) rfl (by decide)).1 rfl

/-- The nesting update cannot abort on a token that is not a group
closer. -/
theorem nestStep_ok_of_not_closer (nest : Nat) (tt : TokenType)
    (h : isCloser tt = false) : ∃ n, nestStep nest tt = .ok n := by
  cases tt <;> first | (exact ⟨_, rfl⟩) | (simp [isCloser] at h)

/-- Root handling of a non-annotation token (collector.rs lines 170 to
179), for an arbitrary forest shape. -/
theorem step_root_ordinary (c : Collector) (blocks : List TokenBlock) (nest : Nat)
    (tok : LexerToken) (n : Nat)
    (htt : tok.token_type ≠ .AnnotationTok)
    (hn : nestStep nest tok.token_type = .ok n) :
    step c ⟨blocks, [], nest⟩ tok
      = .ok ⟨(match blocks with
              | [] => [TokenBlock.with_tokens [tok]]
              | last :: restBlocks =>
                if last.annotation_text == "" then
                  { last with tokens := last.tokens ++ [tok] } :: restBlocks
                else TokenBlock.with_tokens [tok] :: last :: restBlocks),
             [], n⟩ := by
  cases htok : tok.token_type <;>
    (try exact absurd htok htt) <;>
    rw [htok] at hn <;>
    simp only [nestStep] at hn <;>
    first
    | (rcases nest with _ | m
       · simp at hn
       · simp at hn
         subst hn
         cases blocks with
         | nil => simp [step, nestStep, coreStep, htok]
         | cons last restB =>
           by_cases hanno : last.annotation_text = "" <;>
             simp [step, nestStep, coreStep, htok, hanno])
    | (simp at hn
       subst hn
       cases blocks with
       | nil => simp [step, nestStep, coreStep, htok]
       | cons last restB =>
         by_cases hanno : last.annotation_text = "" <;>
           simp [step, nestStep, coreStep, htok, hanno])

/-- While no frame is open, a run of tokens that are neither annotations
nor group closers extends the trailing anonymous root block token by
token. -/
theorem runTokens_coalesce (c : Collector) :
    ∀ (toks acc : List LexerToken) (nest : Nat),
      (∀ t ∈ toks, t.token_type ≠ .AnnotationTok ∧ isCloser t.token_type = false) →
      ∃ n1, runTokens c ⟨[TokenBlock.with_tokens acc], [], nest⟩ toks
        = .ok ⟨[TokenBlock.with_tokens (acc ++ toks)], [], n1⟩ := by
  intro toks
  induction toks with
  | nil =>
    intro acc nest _
    exact ⟨nest, by simp [runTokens]⟩
  | cons t rest ih =>
    intro acc nest hall
    obtain ⟨ht1, ht2⟩ := hall t (List.mem_cons_self t rest)
    obtain ⟨n, hn⟩ := nestStep_ok_of_not_closer nest t.token_type ht2
    have hstep := step_root_ordinary c [TokenBlock.with_tokens acc] nest t n ht1 hn
    simp [TokenBlock.with_tokens, TokenBlock.new] at hstep
    obtain ⟨n1, h1⟩ := ih (acc ++ [t]) n (fun u hu => hall u (List.mem_cons_of_mem t hu))
    refine ⟨n1, ?_⟩
    simp only [runTokens]
    simp only [TokenBlock.with_tokens, TokenBlock.new] at h1 ⊢
    rw [hstep]
    dsimp only
    simp only [List.append_assoc, List.singleton_append] at h1 ⊢
    exact h1

/-- C8: while the frame stack is empty, a non-annotation token is
appended to the last root block when that block is anonymous and starts
a new anonymous root block otherwise (collector.rs lines 170 to 179);
consequently a nonempty run of tokens that are neither annotations nor
group closers collapses to a single anonymous root block holding the
whole input. -/
theorem root_token_coalescing :
    (∀ (c : Collector) (blocks : List TokenBlock) (nest : Nat) (tok : LexerToken) (n : Nat),
       tok.token_type ≠ .AnnotationTok →
       nestStep nest tok.token_type = .ok n →
       step c ⟨blocks, [], nest⟩ tok
         = .ok ⟨(match blocks with
                 | [] => [TokenBlock.with_tokens [tok]]
                 | last :: restBlocks =>
                   if last.annotation_text == "" then
                     { last with tokens := last.tokens ++ [tok] } :: restBlocks
                   else TokenBlock.with_tokens [tok] :: last :: restBlocks),
                [], n⟩) ∧
    (∀ (c : Collector) (toks : List LexerToken),
       toks ≠ [] →
       (∀ t ∈ toks, t.token_type ≠ .AnnotationTok ∧ isCloser t.token_type = false) →
       collect_tokens c toks = .ok (.ok [TokenBlock.with_tokens toks])) := by
  constructor
  · exact step_root_ordinary
  · intro c toks hne hall
    match toks with
    | t :: rest =>
      obtain ⟨ht1, ht2⟩ := hall t (List.mem_cons_self t rest)
      obtain ⟨n, hn⟩ := nestStep_ok_of_not_closer 1 t.token_type ht2
      have hstep := step_root_ordinary c [] 1 t n ht1 hn
      dsimp only at hstep
      obtain ⟨n1, h1⟩ := runTokens_coalesce c rest [t] n
        (fun u hu => hall u (List.mem_cons_of_mem t hu))
      simp only [collect_tokens, runTokens]
      rw [hstep]
      dsimp only
      simp only [List.singleton_append] at h1
      rw [h1]
      simp [flushAll]

/-- Witness for C8: the step conjunct on an empty forest, and the
coalescing conjunct on a three-token run. -/
theorem root_token_coalescing_witness :
    step ⟨[]⟩ ⟨[], [], 1⟩ (numTok ("5")) = .ok ⟨[TokenBlock.with_tokens [numTok ("5")]], [], 1⟩ ∧
    collect_tokens ⟨[]⟩ [numTok ("5"), plusTok, numTok ("7")]
      = .ok (.ok [TokenBlock.with_tokens [numTok ("5"), plusTok, numTok ("7")]]) :=
  ⟨root_token_coalescing.1 ⟨[]⟩ [] 1 (numTok ("5")) 1 (by decide) rfl,
   root_token_coalescing.2 ⟨[]⟩ [numTok ("5"), plusTok, numTok ("7")] (by decide) (by decide)⟩
